import Mathlib

/-!
Verification of the ledger-store block execution and commit pipeline
(`core/store/ledgerstore`, file `ledger_store.go`) of the sharded ontology
ledger.  The `LedgerStoreImp` methods are embedded faithfully from the
source; the external collaborators that the source file only calls into
(the key-value stores, the copy-on-write overlay, the per-transaction
cache, the transaction handlers, signature verification) are modelled
from the specification, as marked on each such definition.
All heights and timestamps are Go `uint32` values, modelled as `Nat`
with explicit reduction modulo `2 ^ 32` wherever the Go code can
overflow.
-/

/-- Reduction of a `Nat` to Go `uint32` range, used exactly where the Go
code performs 32-bit arithmetic that can wrap. -/
def u32 (n : Nat) : Nat := n % 2 ^ 32

/-- Go `uint32` subtraction `a - b` (wrapping). -/
def u32sub (a b : Nat) : Nat := (a + 2 ^ 32 - b % 2 ^ 32) % 2 ^ 32

/-- Byte strings (store keys and values) are modelled as lists of `Nat`. -/
abbrev Bytes := List Nat

/-- Association-list lookup; models reads from an external map. -/
def alookup {κ ν : Type} [DecidableEq κ] : List (κ × ν) → κ → Option ν
  | [], _ => none
  | (k, v) :: rest, key => if k = key then some v else alookup rest key

/-- Association-list update-or-append; models writes to an external map
(the key set stays duplicate-free when built only through `aset`). -/
def aset {κ ν : Type} [DecidableEq κ] : List (κ × ν) → κ → ν → List (κ × ν)
  | [], key, v => [(key, v)]
  | (k, w) :: rest, key, v =>
    if k = key then (k, v) :: rest else (k, w) :: aset rest key v

/-- Association-list removal. -/
def adel {κ ν : Type} [DecidableEq κ] : List (κ × ν) → κ → List (κ × ν)
  | [], _ => []
  | (k, w) :: rest, key => if k = key then adel rest key else (k, w) :: adel rest key

/-- Modelled from the spec: an abstract deterministic hash-combining
step standing in for sha256 in the accumulated-state hash and in the
Merkle-tree roots kept by the state store (the real function lives in
external crypto libraries). -/
def hashPair (a b : Nat) : Nat := (a * 1000003 + b + 7) % 2 ^ 64

/-- Modelled from the spec: the root of the store-kept Merkle tree over
a list of leaf hashes, abstracted as a deterministic left fold. -/
def merkleFold (leaves : List Nat) : Nat := leaves.foldl hashPair 0

/-- Modelled from the spec: deterministic hash of one key/value pair
into an accumulator, used by the overlay change hash and by
`calculateTotalStateHash`. -/
def hashKV (acc : Nat) (kv : Bytes × Bytes) : Nat :=
  hashPair (hashPair acc (merkleFold kv.1)) (merkleFold kv.2)

/-- Length-prefixed flattening of a list of byte strings into one byte
string (serialization of the locked-key list). -/
def encKeys : List Bytes → Bytes
  | [] => []
  | k :: rest => k.length :: k ++ encKeys rest

/-- Ascending sort of a list of numbers, the Go `sort.Slice` with a
`<`-comparator over `uint64` values. -/
def sortNat (l : List Nat) : List Nat := l.insertionSort (· ≤ ·)

/-- Transaction types of `types.Transaction` (Deploy, MetaData, Invoke,
ShardCall). -/
inductive TxType where
  | deploy
  | metaData
  | invoke
  | shardCall
deriving DecidableEq

/-- Execution state recorded in a transaction notification
(`event.CONTRACT_STATE_FAIL` / `event.CONTRACT_STATE_SUCCESS`). -/
inductive NState where
  | fail
  | success
deriving DecidableEq

/-- Parsed `vconfig.ChainConfig`: the consensus node set carried by a
vbft header that changes the chain configuration. -/
structure ChainCfg where
  n : Nat
  c : Nat
  peers : List (Nat × Nat)
deriving DecidableEq

/-- Parsed `vconfig.VbftBlockInfo` of a header consensus payload. -/
structure VbftBlockInfo where
  lastConfigBlockNum : Nat
  newChainConfig : Option ChainCfg
deriving DecidableEq

/-- Block header (`types.Header`).  `hsh` carries the content hash the
Go code computes with `header.Hash()`; `blkInfo` carries the parse
result of the consensus payload (`none` models a payload that fails to
deserialize). -/
structure Header where
  version : Nat
  shardID : Nat
  height : Nat
  parentHeight : Nat
  prevBlockHash : Nat
  txRoot : Nat
  blockRoot : Nat
  timestamp : Nat
  nextBookkeeper : Nat
  bookkeepers : List Nat
  sigData : List Nat
  blkInfo : Option VbftBlockInfo
  hsh : Nat
deriving DecidableEq

/-- Shard system event extracted from a notification
(`message.ShardEventState` after payload deserialization; `cfgEvt` and
`activeEvt` are the parse results of the two payload kinds, `none`
modelling a payload that fails to deserialize). -/
structure ShardEventState where
  eventType : Nat
  cfgHeight : Nat
  cfgShardID : Nat
  cfgConfig : Nat × Nat
  cfgPeers : List (Nat × Nat)
  cfgParses : Bool
  activeShardID : Nat
  activeParses : Bool
deriving DecidableEq

/-- Contract meta-data event (`message.MetaDataEvent`). -/
structure MetaDataEvent where
  height : Nat
  metaData : Nat
deriving DecidableEq

/-- Contract lifetime event (`message.ContractLifetimeEvent`). -/
structure ContractLifetimeEvent where
  deployHeight : Nat
  contract : Nat
  destroyed : Bool
  destroyHeight : Nat
deriving DecidableEq

/-- The tagged variants a single notification entry can carry
(`States` field of `event.NotifyEventInfo`). -/
inductive EvtStates where
  | shardEvt (e : ShardEventState)
  | metaEvt (m : MetaDataEvent)
  | lifeEvt (c : ContractLifetimeEvent)
  | plain (v : Nat)
deriving DecidableEq

/-- One notification entry (`event.NotifyEventInfo`). -/
structure NotifyEntry where
  contractAddress : Nat
  states : EvtStates
deriving DecidableEq

/-- Per-transaction execution notification (`event.ExecuteNotify`). -/
structure ExecuteNotify where
  txHash : Nat
  state : NState
  notify : List NotifyEntry
  sourceTxHash : List Nat
deriving DecidableEq

/-- Transaction-level notification bundle (`event.TransactionNotify`):
the contract event plus the emitted cross-shard messages. -/
structure TxNotify where
  contractEvent : ExecuteNotify
  shardMsg : List Nat
deriving DecidableEq

/-- Intra-shard transaction (`types.Transaction`); `hash` carries the
content hash `tx.Hash()`. -/
structure Tx where
  txType : TxType
  shardID : Nat
  hash : Nat
deriving DecidableEq

/-- Inbound cross-shard transaction wrapper (`types.ShardTx`). -/
structure ShardTx where
  tx : Tx
deriving DecidableEq

/-- Block (`types.Block`): header, intra-shard transactions in block
order, and the map from target shard id to its inbound shard
transactions (modelled as an association list; the Go `map` iteration
order is supplied separately as an enumeration of the keys). -/
structure Block where
  header : Header
  transactions : List Tx
  shardTxs : List (Nat × List ShardTx)
deriving DecidableEq

/-- The keys of the `ShardTxs` map of a block. -/
def Block.shardIds (b : Block) : List Nat := b.shardTxs.map Prod.fst

/-- Lookup of one shard's inbound transaction group. -/
def Block.shardGroup (b : Block) (sid : Nat) : List ShardTx :=
  (alookup b.shardTxs sid).getD []

/-- Execution result of a block (`store.ExecuteResult`). -/
structure ExecuteResult where
  hash : Nat
  writeSet : List (Bytes × Bytes)
  merkleRoot : Nat
  notify : List ExecuteNotify
  shardNotify : List Nat
deriving DecidableEq

/-- The zero `store.ExecuteResult` (Go zero value of the struct). -/
def emptyResult : ExecuteResult :=
  { hash := 0, writeSet := [], merkleRoot := 0, notify := [], shardNotify := [] }

/-- Structured errors of the pipeline, one constructor per distinct
failure source in the embedded code. -/
inductive Err where
  | notFound
  | heightMismatch
  | prevNotFound
  | heightIncorrect
  | timestampIncorrect
  | bookkeepers
  | invalidPubkey
  | bookkeeperAddr
  | sigFail
  | badPayload
  | badTxType
  | rootMismatch
  | storeFault
  | refreshFail
  | hashNil
deriving DecidableEq

/-- Store key-space prefix bytes (`core/store/common/data_entry_prefix.go`). -/
def ST_CONTRACT : Nat := 0x04

/-- Smart-contract storage key namespace byte. -/
def ST_STORAGE : Nat := 0x05

/-- Key namespace byte of the per-block outbound cross-shard message log. -/
def XSHARD_KEY_SHARDS_IN_BLOCK : Nat := 0x35

/-- Key namespace byte of the locked-address snapshot. -/
def XSHARD_KEY_LOCKED_ADDRESS : Nat := 0x38

/-- Key namespace byte of the locked-key snapshot. -/
def XSHARD_KEY_LOCKED_KEY : Nat := 0x39

/-- Modelled from the spec: the copy-on-write state overlay
(`overlaydb.OverlayDB`, external to the embedded file).  `base` is the
read view of the committed raw state, `buf` the buffered write set
(kept duplicate-free and in first-write order; a delete is a buffered
empty value, matching how the commit path interprets the write set),
and `err` the internal storage-error flag that is set on the first
underlying read/write failure and checked by the caller after each
transaction. -/
structure OverlayDB where
  base : List (Bytes × Bytes)
  buf : List (Bytes × Bytes)
  err : Bool
deriving DecidableEq

/-- Modelled from the spec: overlay read, from the buffer with
fall-through to the base store. -/
def OverlayDB.get (ov : OverlayDB) (k : Bytes) : Option Bytes :=
  match alookup ov.buf k with
  | some v => some v
  | none => alookup ov.base k

/-- Modelled from the spec: overlay write, buffered without touching
the base store. -/
def OverlayDB.put (ov : OverlayDB) (k v : Bytes) : OverlayDB :=
  { ov with buf := aset ov.buf k v }

/-- Modelled from the spec: `ChangeHash()`, a deterministic hash over
the accumulated write set; the spec fixes only that the order is
deterministic (insertion order here). -/
def OverlayDB.changeHash (ov : OverlayDB) : Nat :=
  ov.buf.foldl hashKV 0

/-- Modelled from the spec: `GetWriteSet()`, the buffered writes as an
ordered sequence for atomic application to the store. -/
def OverlayDB.writeSet (ov : OverlayDB) : List (Bytes × Bytes) :=
  ov.buf

/-- The merged key/value view an overlay iterator walks: the base store
overridden by the buffer, dropping deleted (empty-value) entries. -/
def OverlayDB.merged (ov : OverlayDB) : List (Bytes × Bytes) :=
  (ov.buf ++ (ov.base.filter (fun kv => alookup ov.buf kv.1 = none))).filter
    (fun kv => ¬ kv.2.isEmpty)

/-- Modelled from the spec: `NewIterator(prefix)` over the overlay,
yielding the merged entries whose key starts with the given byte, in
the overlay's fixed deterministic order. -/
def OverlayDB.iter (ov : OverlayDB) (pb : Nat) : List (Bytes × Bytes) :=
  ov.merged.filter (fun kv => kv.1.head? = some pb)

/-- Modelled from the spec: the per-transaction cache sub-scope
(`storage.CacheDB`): a write buffer over the overlay that `Reset()`
discards before each transaction and `Commit()` merges into the
overlay. -/
structure CacheDB where
  memdb : List (Bytes × Bytes)
deriving DecidableEq

/-- Modelled from the spec: `cache.Commit()`, pushing the cached writes
into the overlay buffer in the cache's deterministic order. -/
def CacheDB.commitTo (c : CacheDB) (ov : OverlayDB) : OverlayDB :=
  c.memdb.foldl (fun o kv => o.put kv.1 kv.2) ov

/-- Modelled from the spec: `storage.XShardDB`, the buffered writer of
cross-shard bookkeeping state (outbound message log, locked-address and
locked-key snapshots) that is committed into the overlay at the end of
block execution. -/
structure XShardDB where
  pending : List (Bytes × Bytes)
deriving DecidableEq

/-- Modelled from the spec: record the outbound cross-shard messages of
this block under the per-height message-log key. -/
def XShardDB.setXShardMsgInBlock (x : XShardDB) (height : Nat) (msgs : List Nat) : XShardDB :=
  { x with pending := aset x.pending [XSHARD_KEY_SHARDS_IN_BLOCK, height] msgs }

/-- Modelled from the spec: persist the locked-address set; the spec's
determinism requirement forces a canonical serialization, so the set is
stored sorted and duplicate-free. -/
def XShardDB.setLockedAddress (x : XShardDB) (addrs : List Nat) : XShardDB :=
  { x with pending := aset x.pending [XSHARD_KEY_LOCKED_ADDRESS] (sortNat addrs.dedup) }

/-- Modelled from the spec: persist the locked-key set canonically. -/
def XShardDB.setLockedKeys (x : XShardDB) (ks : List Bytes) : XShardDB :=
  { x with pending := aset x.pending [XSHARD_KEY_LOCKED_KEY] (encKeys ks.dedup) }

/-- Modelled from the spec: `xshardDB.Commit()`, merging the buffered
cross-shard writes into the overlay. -/
def XShardDB.commitTo (x : XShardDB) (ov : OverlayDB) : OverlayDB :=
  x.pending.foldl (fun o kv => o.put kv.1 kv.2) ov

/-- Modelled from the spec: a durable store with atomic batched writes.
`data` is the committed content; `batch` is the open write batch.
Reads during a batch observe only committed content; `commitTo`
atomically replaces the committed content with the batch. -/
structure Batched (α : Type) where
  data : α
  batch : α
deriving DecidableEq

/-- Modelled from the spec: `NewBatch()`, opening a fresh batch over
the committed content. -/
def Batched.newBatch {α : Type} (s : Batched α) : Batched α :=
  { s with batch := s.data }

/-- Modelled from the spec: a batched write. -/
def Batched.write {α : Type} (f : α → α) (s : Batched α) : Batched α :=
  { s with batch := f s.batch }

/-- Modelled from the spec: `CommitTo()`; `fault` injects the
underlying store failure whose handling the pipeline must survive. -/
def Batched.commitTo {α : Type} (fault : Bool) (s : Batched α) : Except Err (Batched α) :=
  if fault then .error .storeFault else .ok { s with data := s.batch }

/-- Modelled from the spec: content of the block store (block payloads,
header index, current-block pointer), keyed as the collaborator store
keeps it. -/
structure BlockStoreData where
  currH : Nat
  currHash : Nat
  blocks : List (Nat × Block)
  headers : List (Nat × Header)
  blockHashIdx : List (Nat × Nat)
  headerIdxStored : List (Nat × Nat)
deriving DecidableEq

/-- Modelled from the spec: content of the state store (raw contract
and storage state, per-height state roots, the Merkle tree of
transaction roots, shard events, current-block pointer). -/
structure StateStoreData where
  currH : Nat
  currHash : Nat
  raw : List (Bytes × Bytes)
  leaves : List Nat
  rootsByHeight : List (Nat × Nat)
  txRoots : List Nat
  shardEvents : List (Nat × List (Nat × ShardEventState))
deriving DecidableEq

/-- Modelled from the spec: content of the event store (per-transaction
and per-block notifications, shard consensus configuration log,
contract meta-data and lifetime events, current-block pointer). -/
structure EventStoreData where
  currH : Nat
  currHash : Nat
  notifyByTx : List (Nat × ExecuteNotify)
  notifyByBlock : List (Nat × List Nat)
  shardCfg : List ((Nat × Nat) × Bytes)
  shardHeights : List (Nat × List Nat)
  contractMeta : List ((Nat × Nat) × Nat)
  contractEvents : List (Nat × ContractLifetimeEvent)
deriving DecidableEq

/-- Modelled from the spec: `blockStore.GetBlockHash(height)`; a
missing index entry is the store's not-found error. -/
def bsGetBlockHash (d : BlockStoreData) (height : Nat) : Except Err Nat :=
  match alookup d.blockHashIdx height with
  | some h => .ok h
  | none => .error .notFound

/-- Modelled from the spec: `blockStore.GetBlock(blockHash)`. -/
def bsGetBlock (d : BlockStoreData) (bh : Nat) : Except Err Block :=
  match alookup d.blocks bh with
  | some b => .ok b
  | none => .error .notFound

/-- Modelled from the spec: `stateStore.GetStateMerkleRoot(height)`,
the root previously recorded for that height. -/
def ssGetStateMerkleRoot (d : StateStoreData) (height : Nat) : Except Err Nat :=
  match alookup d.rootsByHeight height with
  | some r => .ok r
  | none => .error .notFound

/-- Modelled from the spec:
`stateStore.GetStateMerkleRootWithNewHash(h)`: the root the Merkle tree
would have after folding the new write-set hash into the previously
accumulated leaves — incremental chaining, not a recomputation. -/
def ssGetStateMerkleRootWithNewHash (d : StateStoreData) (h : Nat) : Nat :=
  merkleFold (d.leaves ++ [h])

/-- Modelled from the spec: `stateStore.AddStateMerkleTreeRoot`,
appending the block's write-set hash as a new leaf and recording the
resulting root for the height. -/
def ssAddStateMerkleTreeRoot (d : StateStoreData) (height h : Nat) : StateStoreData :=
  { d with leaves := d.leaves ++ [h],
           rootsByHeight := aset d.rootsByHeight height (merkleFold (d.leaves ++ [h])) }

/-- Modelled from the spec: `stateStore.AddBlockMerkleTreeRoot`,
appending a transaction root to the block Merkle tree. -/
def ssAddBlockMerkleTreeRoot (d : StateStoreData) (txRoot : Nat) : StateStoreData :=
  { d with txRoots := d.txRoots ++ [txRoot] }

/-- Modelled from the spec: `stateStore.GetBlockRootWithNewTxRoots`,
the block-Merkle root after appending the given transaction roots. -/
def ssGetBlockRootWithNewTxRoots (d : StateStoreData) (roots : List Nat) : Nat :=
  merkleFold (d.txRoots ++ roots)

/-- The store key of the locked-address snapshot. -/
def lockedAddrKey : Bytes := [XSHARD_KEY_LOCKED_ADDRESS]

/-- The store key of the locked-key snapshot. -/
def lockedKeysKey : Bytes := [XSHARD_KEY_LOCKED_KEY]

/-- Inverse of `encKeys`, reading the locked-key list back from its
length-prefixed serialization. -/
def decKeys : Bytes → List Bytes
  | [] => []
  | n :: rest => rest.take n :: decKeys (rest.drop n)
termination_by l => l.length
decreasing_by simp [List.length_drop]; omega

/-- Modelled from the spec: `stateStore.GetCurrentLockedAddress()`,
reading the locked-address snapshot from the committed raw state. -/
def ssGetCurrentLockedAddress (d : StateStoreData) : List Nat :=
  (alookup d.raw lockedAddrKey).getD []

/-- Modelled from the spec: `stateStore.GetCurrentLockedKeys()`. -/
def ssGetCurrentLockedKeys (d : StateStoreData) : List Bytes :=
  decKeys ((alookup d.raw lockedKeysKey).getD [])

/-- Modelled from the spec: `eventStore.GetShardConsensusHeight`; a
missing entry is the store's not-found error, which the caller
tolerates. -/
def esGetShardConsensusHeight (d : EventStoreData) (shardID : Nat) : List Nat :=
  (alookup d.shardHeights shardID).getD []

/-- Gas-cost table handed to every transaction handler (snapshot of the
global `neovm.GAS_TABLE`). -/
abbrev GasTable := List (Nat × Nat)

/-- The mutable state a transaction handler works on: the block's
overlay, the per-transaction cache, the cross-shard write buffer and
the in-memory locked-address/key sets. -/
structure HandlerSt where
  ov : OverlayDB
  cache : CacheDB
  xdb : XShardDB
  lockedA : List Nat
  lockedK : List Bytes
deriving DecidableEq

/-- Modelled from the spec: the external transaction handlers
(`HandleDeployTransaction`, `HandleChangeMetadataTransaction`,
`HandleInvokeTransaction`, `HandleShardCallTransaction`), signature
verification, bookkeeper-address derivation and the global-parameter
refresh — all collaborators outside the embedded file.  Each handler is
an arbitrary deterministic function of its inputs that returns the
updated state, the updated notification and whether the handler itself
failed (the handler may also set the overlay error flag inside the
returned state). -/
structure ExtOps where
  handleDeploy : GasTable → Header → Tx → ExecuteNotify → HandlerSt → HandlerSt × ExecuteNotify × Bool
  handleMeta : GasTable → Header → Tx → ExecuteNotify → HandlerSt → HandlerSt × ExecuteNotify × Bool
  handleInvoke : GasTable → Header → Tx → TxNotify → HandlerSt → HandlerSt × TxNotify × Bool
  handleShardCall : GasTable → Header → Tx → TxNotify → HandlerSt → HandlerSt × TxNotify × Bool
  refresh : StateStoreData → Header → Except Err GasTable
  verifyMultiSig : Nat → List Nat → Nat → List Nat → Bool
  addrFromBookkeepers : List Nat → Nat

/-- Consensus type selected by the global configuration. -/
inductive CType where
  | vbft
  | solo
deriving DecidableEq

/-- The global configuration bits the embedded code consults, plus the
per-ledger `stateHashCheckHeight` threshold. -/
structure Config where
  consensus : CType
  enableEventLog : Bool
  baseGas : GasTable
  stateHashCheckHeight : Nat

/-- The notification a transaction starts from: recorded transaction
hash and the failed state (`event.CONTRACT_STATE_FAIL`), exactly as
`HandleTransaction` initializes it before dispatching. -/
def initNotify (tx : Tx) : ExecuteNotify :=
  { txHash := tx.hash, state := .fail, notify := [], sourceTxHash := [] }

/-- The bare handler dispatch of `HandleTransaction`: the handler that
the transaction type selects, applied to the freshly initialized
notification, before any error-flag check or cache commit. -/
def rawDispatch (ext : ExtOps) (gt : GasTable) (hdr : Header) (tx : Tx) (s : HandlerSt) :
    HandlerSt × TxNotify × Bool :=
  match tx.txType with
  | .deploy =>
    let r := ext.handleDeploy gt hdr tx (initNotify tx) s
    (r.1, ⟨r.2.1, []⟩, r.2.2)
  | .metaData =>
    let r := ext.handleMeta gt hdr tx (initNotify tx) s
    (r.1, ⟨r.2.1, []⟩, r.2.2)
  | .invoke => ext.handleInvoke gt hdr tx ⟨initNotify tx, []⟩ s
  | .shardCall => ext.handleShardCall gt hdr tx ⟨initNotify tx, []⟩ s

/-- Embedding of `HandleTransaction` (ledger_store.go): dispatch on the transaction
type; after the handler runs, a set overlay error flag aborts with an
error; otherwise the cache is committed (except for `MetaData`, which
the source does not commit) and the handler's own failure is only
logged, the transaction's notification being the sole report. -/
def HandleTransactionP (ext : ExtOps) (gt : GasTable) (hdr : Header) (tx : Tx) (s : HandlerSt) :
    Except Err (HandlerSt × TxNotify) :=
  match tx.txType with
  | .deploy =>
    let r := ext.handleDeploy gt hdr tx (initNotify tx) s
    if r.1.ov.err then .error .storeFault
    else .ok ({ r.1 with ov := r.1.cache.commitTo r.1.ov }, ⟨r.2.1, []⟩)
  | .metaData =>
    let r := ext.handleMeta gt hdr tx (initNotify tx) s
    if r.1.ov.err then .error .storeFault
    else .ok (r.1, ⟨r.2.1, []⟩)
  | .invoke =>
    let r := ext.handleInvoke gt hdr tx ⟨initNotify tx, []⟩ s
    if r.1.ov.err then .error .storeFault
    else .ok ({ r.1 with ov := r.1.cache.commitTo r.1.ov }, r.2.1)
  | .shardCall =>
    let r := ext.handleShardCall gt hdr tx ⟨initNotify tx, []⟩ s
    if r.1.ov.err then .error .storeFault
    else .ok ({ r.1 with ov := r.1.cache.commitTo r.1.ov }, r.2.1)

/-- Execution state threaded through the two transaction loops of
`executeBlock`: handler state plus the accumulated notifications and
outbound cross-shard messages. -/
structure ExecSt where
  hs : HandlerSt
  notify : List ExecuteNotify
  shardNotify : List Nat
deriving DecidableEq

/-- Observable events of one `executeBlock` run: a cache reset, the
completed handling of an inbound cross-shard transaction of a given
target shard, or the completed handling of an intra-shard
transaction. -/
inductive TEv where
  | reset
  | shardHandled (sid : Nat) (txh : Nat)
  | txHandled (txh : Nat)
deriving DecidableEq

/-- The inner loop of the shard-transaction phase of `executeBlock`:
reset the cache sub-scope, require the `ShardCall` type (any other type
aborts the whole block), handle, and accumulate messages and
notifications. -/
def runShardGroup (ext : ExtOps) (gt : GasTable) (hdr : Header) (sid : Nat) :
    List ShardTx → ExecSt → List TEv × Except Err ExecSt
  | [], s => ([], .ok s)
  | stx :: rest, s =>
    let s0 : ExecSt := { s with hs := { s.hs with cache := ⟨[]⟩ } }
    if stx.tx.txType ≠ .shardCall then ([.reset], .error .badTxType)
    else
      match HandleTransactionP ext gt hdr stx.tx s0.hs with
      | .error e => ([.reset], .error e)
      | .ok (hs1, n) =>
        let s1 : ExecSt := { hs := hs1, notify := s0.notify ++ [n.contractEvent],
                             shardNotify := s0.shardNotify ++ n.shardMsg }
        let rec1 := runShardGroup ext gt hdr sid rest s1
        (.reset :: .shardHandled sid stx.tx.hash :: rec1.1, rec1.2)

/-- The outer loop of the shard-transaction phase: the groups in the
order of the (sorted) shard-id list. -/
def runShardGroups (ext : ExtOps) (gt : GasTable) (hdr : Header) (b : Block) :
    List Nat → ExecSt → List TEv × Except Err ExecSt
  | [], s => ([], .ok s)
  | sid :: rest, s =>
    let r1 := runShardGroup ext gt hdr sid (b.shardGroup sid) s
    match r1.2 with
    | .error e => (r1.1, .error e)
    | .ok s1 =>
      let r2 := runShardGroups ext gt hdr b rest s1
      (r1.1 ++ r2.1, r2.2)

/-- The intra-shard transaction loop of `executeBlock`: reset the cache
sub-scope, reject a `ShardCall` type (aborting the whole block),
handle, accumulate. -/
def runIntraTxs (ext : ExtOps) (gt : GasTable) (hdr : Header) :
    List Tx → ExecSt → List TEv × Except Err ExecSt
  | [], s => ([], .ok s)
  | tx :: rest, s =>
    let s0 : ExecSt := { s with hs := { s.hs with cache := ⟨[]⟩ } }
    if tx.txType = .shardCall then ([.reset], .error .badTxType)
    else
      match HandleTransactionP ext gt hdr tx s0.hs with
      | .error e => ([.reset], .error e)
      | .ok (hs1, n) =>
        let s1 : ExecSt := { hs := hs1, notify := s0.notify ++ [n.contractEvent],
                             shardNotify := s0.shardNotify ++ n.shardMsg }
        let rec1 := runIntraTxs ext gt hdr rest s1
        (.reset :: .txHandled tx.hash :: rec1.1, rec1.2)

/-- End of the execution loop of `executeBlock`: record the outbound
message log and the locked-address/key snapshots in the cross-shard
buffer and commit it into the overlay, yielding the block's final
overlay. -/
def xdbFinish (height : Nat) (s : ExecSt) : OverlayDB :=
  (((s.hs.xdb.setXShardMsgInBlock height s.shardNotify).setLockedAddress
      s.hs.lockedA).setLockedKeys s.hs.lockedK).commitTo s.hs.ov

/-- Embedding of `calculateTotalStateHash` (ledger_store.go): the one-time
accumulated hash over the contract (`ST_CONTRACT`) and storage
(`ST_STORAGE`) namespaces of the overlay's merged view; an overlay in
the error state surfaces the iterator error. -/
def calculateTotalStateHash (ov : OverlayDB) : Except Err Nat :=
  if ov.err then .error .storeFault
  else .ok ((ov.iter ST_CONTRACT ++ ov.iter ST_STORAGE).foldl hashKV 0)

/-- The state-root phase at the end of `executeBlock` (ledger_store.go
lines setting `result.Hash`, `result.WriteSet`, `result.MerkleRoot`):
below the `stateHashCheckHeight` threshold the root is the fixed empty
value; at the threshold it is `calculateTotalStateHash`, which also
replaces `result.Hash`; above it, the incremental chaining
`GetStateMerkleRootWithNewHash result.Hash`. -/
def executeFinish (shh : Nat) (ss : StateStoreData) (height : Nat) (ov : OverlayDB)
    (nt : List ExecuteNotify) (sn : List Nat) : Except Err ExecuteResult :=
  let base : ExecuteResult :=
    { hash := ov.changeHash, writeSet := ov.writeSet, merkleRoot := 0,
      notify := nt, shardNotify := sn }
  if height < shh then .ok base
  else if height = shh then
    match calculateTotalStateHash ov with
    | .error e => .error e
    | .ok r => .ok { base with merkleRoot := r, hash := r }
  else .ok { base with merkleRoot := ssGetStateMerkleRootWithNewHash ss base.hash }

/-- The execution state `executeBlock` starts from: a fresh overlay
over the committed state store, empty cache and cross-shard buffers,
and the locked-address/key sets read from the store. -/
def execInit (ss : StateStoreData) : ExecSt :=
  { hs := { ov := { base := ss.raw, buf := [], err := false }, cache := ⟨[]⟩,
            xdb := ⟨[]⟩, lockedA := ssGetCurrentLockedAddress ss,
            lockedK := ssGetCurrentLockedKeys ss },
    notify := [], shardNotify := [] }

/-- Embedding of `executeBlock` (ledger_store.go), after the shard-id list has been
sorted: refresh global parameters unless at height zero, run the two
transaction loops from the fresh overlay, then the cross-shard
bookkeeping and the state-root phase. -/
def executeBlockSorted (ext : ExtOps) (cfg : Config) (ss : StateStoreData) (ids : List Nat)
    (b : Block) : List TEv × Except Err ExecuteResult :=
  match (if b.header.height ≠ 0 then ext.refresh ss b.header else .ok cfg.baseGas) with
  | .error e => ([], .error e)
  | .ok gt =>
    let r1 := runShardGroups ext gt b.header b ids (execInit ss)
    match r1.2 with
    | .error e => (r1.1, .error e)
    | .ok s1 =>
      let r2 := runIntraTxs ext gt b.header b.transactions s1
      match r2.2 with
      | .error e => (r1.1 ++ r2.1, .error e)
      | .ok s2 =>
        (r1.1 ++ r2.1,
         executeFinish cfg.stateHashCheckHeight ss b.header.height
           (xdbFinish b.header.height s2) s2.notify s2.shardNotify)

/-- Embedding of `executeBlock` (ledger_store.go): the shard-transaction groups are
visited in ascending numeric order of their target shard id — the ids
collected from the Go map range (whose order `order` is arbitrary) are
sorted before the loops run. -/
def executeBlockP (ext : ExtOps) (cfg : Config) (ss : StateStoreData) (order : List Nat)
    (b : Block) : List TEv × Except Err ExecuteResult :=
  executeBlockSorted ext cfg ss (sortNat order) b

/-- In-memory and durable state owned by `LedgerStoreImp`: the three
batched stores, the saved-header-index counter, the current-block
pointer, the header cache and height index, and the two vbft peer-info
maps. -/
structure LedgerState where
  blockStore : Batched BlockStoreData
  stateStore : Batched StateStoreData
  eventStore : Batched EventStoreData
  storedIndexCount : Nat
  currBlockHeight : Nat
  currBlockHash : Nat
  headerCache : List (Nat × Header)
  headerIndex : List (Nat × Nat)
  vbftPeerInfoheader : List (Nat × Nat)
  vbftPeerInfoblock : List (Nat × Nat)
deriving DecidableEq

/-- Embedding of `GetHeaderByHash`: the header cache first, then the block store. -/
def getHeaderByHash (st : LedgerState) (bh : Nat) : Option Header :=
  match alookup st.headerCache bh with
  | some h => some h
  | none => alookup st.blockStore.data.headers bh

/-- Embedding of `GetCurrentHeaderHeight`: one less than the size of the header
index (zero when the index is empty). -/
def currentHeaderHeight (st : LedgerState) : Nat :=
  if st.headerIndex.length = 0 then 0 else st.headerIndex.length - 1

/-- Embedding of `setCurrentBlock`: the in-memory current-block pointer update. -/
def setCurrentBlockF (st : LedgerState) (height bh : Nat) : LedgerState :=
  { st with currBlockHeight := height, currBlockHash := bh }

/-- Embedding of `setHeaderIndex`. -/
def setHeaderIndexF (st : LedgerState) (height bh : Nat) : LedgerState :=
  { st with headerIndex := aset st.headerIndex height bh }

/-- Embedding of `delHeaderCache`. -/
def delHeaderCacheF (st : LedgerState) (bh : Nat) : LedgerState :=
  { st with headerCache := adel st.headerCache bh }

/-- Embedding of `verifyHeader` (ledger_store.go): genesis headers pass immediately;
otherwise the previous header named by `PrevBlockHash` must exist, the
height must be its successor and the timestamp strictly larger, and
then the consensus-specific bookkeeper/signature checks run (vbft
quorum over the peer-info map, or bookkeeper-address plus
multi-signature otherwise). -/
def verifyHeaderP (ext : ExtOps) (cfg : Config) (st : LedgerState) (h : Header)
    (p : List (Nat × Nat)) : Except Err (List (Nat × Nat)) :=
  if h.height = 0 then .ok p
  else
    match getHeaderByHash st h.prevBlockHash with
    | none => .error .prevNotFound
    | some prev =>
      if u32 (prev.height + 1) ≠ h.height then .error .heightIncorrect
      else if prev.timestamp ≥ h.timestamp then .error .timestampIncorrect
      else if cfg.consensus = .vbft then
        let m := p.length - p.length * 6 / 7
        if h.bookkeepers.length < m then .error .bookkeepers
        else if ¬ h.bookkeepers.all (fun bk => (alookup p bk).isSome) then .error .invalidPubkey
        else if ¬ ext.verifyMultiSig h.hsh h.bookkeepers m h.sigData then .error .sigFail
        else
          match h.blkInfo with
          | none => .error .badPayload
          | some bi =>
            match bi.newChainConfig with
            | some cc => .ok cc.peers
            | none => .ok p
      else
        let address := ext.addrFromBookkeepers h.bookkeepers
        if prev.nextBookkeeper ≠ address then .error .bookkeeperAddr
        else
          let m := h.bookkeepers.length - (h.bookkeepers.length - 1) / 3
          if ext.verifyMultiSig h.hsh h.bookkeepers m h.sigData then .ok p
          else .error .sigFail

/-- Embedding of `AddHeader` (ledger_store.go): the header must sit exactly one
above the current header height, then `verifyHeader` runs; on success
the header enters the cache and the height index. -/
def AddHeaderP (ext : ExtOps) (cfg : Config) (st : LedgerState) (h : Header) :
    LedgerState × Option Err :=
  if h.height ≠ u32 (currentHeaderHeight st + 1) then (st, some .heightMismatch)
  else
    match verifyHeaderP ext cfg st h st.vbftPeerInfoheader with
    | .error e => (st, some e)
    | .ok p =>
      ({ st with vbftPeerInfoheader := p,
                 headerCache := aset st.headerCache h.hsh h,
                 headerIndex := aset st.headerIndex h.height h.hsh }, none)

/-- Embedding of `GetBlockRootWithNewTxRoots` (ledger_store.go): empty root when the
ledger is already past the requested range, otherwise the block-Merkle
root over the stored transaction roots extended by the still-needed
tail (the Go expression `txRoots[currBlockHeight+1-startHeight:]` uses
wrapping `uint32` arithmetic). -/
def GetBlockRootWithNewTxRootsL (st : LedgerState) (startHeight : Nat)
    (txRoots : List Nat) : Nat :=
  if st.currBlockHeight > startHeight + txRoots.length - 1 then 0
  else ssGetBlockRootWithNewTxRoots st.stateStore.data
    (txRoots.drop (u32sub (st.currBlockHeight + 1) startHeight))

/-- Embedding of `ExecuteBlock` (ledger_store.go): at or below the committed height
it returns only the previously recorded state Merkle root (zero result
otherwise, nothing executed); at any height other than the next it
fails; at exactly the next height it runs `executeBlock`. -/
def ExecuteBlockL (ext : ExtOps) (cfg : Config) (st : LedgerState) (order : List Nat)
    (b : Block) : List TEv × Except Err ExecuteResult :=
  if b.header.height ≤ st.currBlockHeight then
    ([], (ssGetStateMerkleRoot st.stateStore.data b.header.height).map
      (fun r => { emptyResult with merkleRoot := r }))
  else if b.header.height ≠ u32 (st.currBlockHeight + 1) then ([], .error .heightMismatch)
  else executeBlockP ext cfg st.stateStore.data order b

/-- Embedding of `HEADER_INDEX_BATCH_SIZE`. -/
def HEADER_INDEX_BATCH_SIZE : Nat := 2000

/-- Embedding of `saveHeaderIndexList` (ledger_store.go): flush a batch of 2000
header-index entries to the block store once the in-memory index runs
that far ahead of the stored count; the pair is the updated block store
and stored-index counter. -/
def saveHeaderIndexListR (st : LedgerState) : Batched BlockStoreData × Nat :=
  let storeCount := st.storedIndexCount
  let currHeight := st.currBlockHeight
  if u32sub currHeight storeCount < HEADER_INDEX_BATCH_SIZE then
    (st.blockStore, st.storedIndexCount)
  else
    let flush := fun (d : BlockStoreData) =>
      { d with headerIdxStored :=
          ((List.range HEADER_INDEX_BATCH_SIZE).foldl
            (fun acc i => aset acc (storeCount + i) ((alookup st.headerIndex (storeCount + i)).getD 0))
            d.headerIdxStored) }
    (st.blockStore.write flush, st.storedIndexCount + HEADER_INDEX_BATCH_SIZE)

/-- Embedding of `saveHeaderIndexList` as the state transformation: only the block
store batch and the stored-index counter change. -/
def saveHeaderIndexListP (st : LedgerState) : LedgerState :=
  { st with blockStore := (saveHeaderIndexListR st).1,
            storedIndexCount := (saveHeaderIndexListR st).2 }

/-- Embedding of `saveBlockToBlockStore` (ledger_store.go): header index update and
flush, then the current-block pointer, the height-to-hash entry and the
block payload, all into the open block-store batch. -/
def saveBlockToBlockStoreP (st : LedgerState) (b : Block) : LedgerState :=
  let st := setHeaderIndexF st b.header.height b.header.hsh
  let st := saveHeaderIndexListP st
  { st with blockStore := st.blockStore.write (fun d =>
      { d with currH := b.header.height, currHash := b.header.hsh,
               blockHashIdx := aset d.blockHashIdx b.header.height b.header.hsh,
               blocks := aset d.blocks b.header.hsh b,
               headers := aset d.headers b.header.hsh b.header }) }

/-- Address of the shard-management native contract (modelled
constant). -/
def shardMgmtAddr : Nat := 901

/-- Address of the shard-system-message native contract (modelled
constant). -/
def shardSysMsgAddr : Nat := 902

/-- Embedding of `shardstates.EVENT_SHARD_CONFIG_UPDATE` (modelled constant). -/
def EVENT_SHARD_CONFIG_UPDATE : Nat := 3

/-- Embedding of `shardstates.EVENT_SHARD_ACTIVATED` (modelled constant). -/
def EVENT_SHARD_ACTIVATED : Nat := 4

/-- Embedding of `extractShardEvents` (ledger_store.go): walk every notification
entry, collecting shard system events (only from the two shard native
contracts), contract meta-data events and contract lifetime events. -/
def extractShardEvents (ns : List ExecuteNotify) :
    List (Nat × ShardEventState) × List MetaDataEvent × List ContractLifetimeEvent :=
  ns.foldl (fun acc txe =>
    txe.notify.foldl (fun acc n =>
      if n.contractAddress = shardMgmtAddr ∨ n.contractAddress = shardSysMsgAddr then
        match n.states with
        | .shardEvt e => (acc.1 ++ [(n.contractAddress, e)], acc.2.1, acc.2.2)
        | _ => acc
      else
        match n.states with
        | .metaEvt m => (acc.1, acc.2.1 ++ [m], acc.2.2)
        | .lifeEvt c => (acc.1, acc.2.1, acc.2.2 ++ [c])
        | _ => acc) acc) ([], [], [])

/-- Embedding of `saveShardState`: record the block's shard system events in the
state store batch. -/
def saveShardStateP (st : LedgerState) (b : Block) (r : ExecuteResult) : LedgerState :=
  { st with stateStore := st.stateStore.write (fun d =>
      { d with shardEvents := aset d.shardEvents b.header.height (extractShardEvents r.notify).1 }) }

/-- Embedding of `saveBlockToStateStore` (ledger_store.go): state Merkle leaf and
root, block-Merkle transaction root, current-block pointer, shard
events, then the write set applied entry by entry (an empty value is a
delete), and — when the event log is enabled — the per-transaction
notifications written into the event store batch. -/
def saveBlockToStateStoreP (cfg : Config) (st : LedgerState) (b : Block)
    (r : ExecuteResult) : LedgerState :=
  let st := { st with stateStore := st.stateStore.write (fun d =>
      ssAddStateMerkleTreeRoot d b.header.height r.hash) }
  let st := { st with stateStore := st.stateStore.write (fun d =>
      ssAddBlockMerkleTreeRoot d b.header.txRoot) }
  let st := { st with stateStore := st.stateStore.write (fun d =>
      { d with currH := b.header.height, currHash := b.header.hsh }) }
  let st := saveShardStateP st b r
  let st := { st with stateStore := st.stateStore.write (fun d =>
      { d with raw := r.writeSet.foldl (fun raw kv =>
          if kv.2.isEmpty then adel raw kv.1 else aset raw kv.1 kv.2) d.raw }) }
  if cfg.enableEventLog then
    { st with eventStore := st.eventStore.write (fun d =>
        { d with notifyByTx := r.notify.foldl (fun acc n => aset acc n.txHash n) d.notifyByTx }) }
  else st

/-- Embedding of `saveBlockToEventStore` (ledger_store.go): the block's transaction
hash list (only when non-empty) and the event-store current-block
pointer. -/
def saveBlockToEventStoreP (st : LedgerState) (b : Block) : LedgerState :=
  let txs := b.transactions.map (fun t => t.hash)
  let es :=
    if txs.length > 0 then
      st.eventStore.write (fun d =>
        { d with notifyByBlock := aset d.notifyByBlock b.header.height txs })
    else st.eventStore
  { st with eventStore := es.write (fun d =>
      { d with currH := b.header.height, currHash := b.header.hsh }) }

/-- Serialization of a `ConfigShardEvent` into store bytes (modelled
deterministic encoding). -/
def encCfgEvent (height shardID : Nat) (cfgv : Nat × Nat) (peers : List (Nat × Nat)) : Bytes :=
  height :: shardID :: cfgv.1 :: cfgv.2 :: peers.flatMap (fun pr => [pr.1, pr.2])

/-- Embedding of `addShardEventConfig` (ledger_store.go): write the serialized shard
consensus configuration and append the height to the shard's consensus
height list (read from the committed store, a missing entry
tolerated). -/
def addShardEventConfigP (st : LedgerState) (height shardID : Nat) (cfgv : Nat × Nat)
    (peers : List (Nat × Nat)) : LedgerState :=
  let bytes := encCfgEvent height shardID cfgv peers
  let heights := esGetShardConsensusHeight st.eventStore.data shardID ++ [height]
  { st with eventStore := st.eventStore.write (fun d =>
      { d with shardCfg := aset d.shardCfg (shardID, height) bytes,
               shardHeights := aset d.shardHeights shardID heights }) }

/-- The storage key under which the shard-management contract keeps a
shard's state (modelled layout). -/
def shardStateKey (sid : Nat) : Bytes := [ST_STORAGE, shardMgmtAddr, 0x77, sid]

/-- Decoding of a stored shard state into its configuration and peer
list (modelled inverse of the shard-state serialization; `none` is a
deserialization failure). -/
def decodeShardState : Bytes → Option ((Nat × Nat) × List (Nat × Nat))
  | n :: c :: ps => some ((n, c), (ps.toChunks 2).map (fun pr => (pr.headI, pr.getLast?.getD 0)))
  | _ => none

/-- Embedding of `saveCrossShardGovernanceData` (ledger_store.go): scan the shard
system events; the first shard-config-update event records its carried
configuration, the first shard-activated event records the
configuration read from the block's write set (falling back to the
committed storage), and the function returns after handling one event;
any deserialization failure just skips the event. -/
def saveCrossShardGovernanceDataP (st : LedgerState) (ws : List (Bytes × Bytes)) :
    List (Nat × ShardEventState) → LedgerState
  | [] => st
  | (_, e) :: rest =>
    if e.eventType = EVENT_SHARD_CONFIG_UPDATE then
      if e.cfgParses then addShardEventConfigP st e.cfgHeight e.cfgShardID e.cfgConfig e.cfgPeers
      else saveCrossShardGovernanceDataP st ws rest
    else if e.eventType = EVENT_SHARD_ACTIVATED then
      if e.activeParses then
        match
          (match alookup ws (shardStateKey e.activeShardID) with
           | some v => decodeShardState v
           | none =>
             match alookup st.stateStore.data.raw (shardStateKey e.activeShardID) with
             | some v => decodeShardState v
             | none => none) with
        | some cp => addShardEventConfigP st 0 e.activeShardID cp.1 cp.2
        | none => saveCrossShardGovernanceDataP st ws rest
      else saveCrossShardGovernanceDataP st ws rest
    else saveCrossShardGovernanceDataP st ws rest

/-- Embedding of `saveParentShardConfig` (ledger_store.go): nothing under solo
consensus; otherwise the consensus payload must parse, and when the
header is its own last-config block the new chain configuration is
recorded. -/
def saveParentShardConfigP (cfg : Config) (st : LedgerState) (b : Block) :
    Except Err LedgerState :=
  if cfg.consensus = .solo then .ok st
  else
    match b.header.blkInfo with
    | none => .error .badPayload
    | some bi =>
      if bi.lastConfigBlockNum ≠ b.header.height then .ok st
      else
        match bi.newChainConfig with
        | none => .error .badPayload
        | some cc =>
          .ok (addShardEventConfigP st b.header.height b.header.shardID (cc.n, cc.c) cc.peers)

/-- Embedding of `saveContractMetaData`: record every contract meta-data event in
the event store batch. -/
def saveContractMetaDataP (st : LedgerState) (ms : List MetaDataEvent) : LedgerState :=
  ms.foldl (fun st m =>
    { st with eventStore := st.eventStore.write (fun d =>
        { d with contractMeta := aset d.contractMeta (m.height, m.metaData) m.metaData }) }) st

/-- Embedding of `saveCrossShardDeployContractEventData`: record every contract
lifetime event in the event store batch. -/
def saveCrossShardDeployP (st : LedgerState) (cs : List ContractLifetimeEvent) : LedgerState :=
  cs.foldl (fun st c =>
    { st with eventStore := st.eventStore.write (fun d =>
        { d with contractEvents := aset d.contractEvents c.contract c }) }) st

/-- Embedding of `saveCrossShardDataToStore` (ledger_store.go): governance data from
the shard system events, the parent-shard configuration, the contract
meta-data events and the contract lifetime events, in that order. -/
def saveCrossShardDataToStoreP (cfg : Config) (st : LedgerState) (b : Block)
    (r : ExecuteResult) : Except Err LedgerState :=
  let ex := extractShardEvents r.notify
  let st := saveCrossShardGovernanceDataP st r.writeSet ex.1
  match saveParentShardConfigP cfg st b with
  | .error e => .error e
  | .ok st => .ok (saveCrossShardDeployP (saveContractMetaDataP st ex.2.1) ex.2.2)

/-- Injected commit faults of the three durable stores, modelling an
underlying store failure (or the crash point right before the
corresponding commit). -/
structure FaultSpec where
  fb : Bool
  fe : Bool
  fs : Bool
deriving DecidableEq

/-- The fault-free store behaviour. -/
def noFault : FaultSpec := { fb := false, fe := false, fs := false }

/-- Observable commit-phase events of one `submitBlock` run: the three
store commits with their outcome, and the in-memory current-block
pointer update. -/
inductive CEv where
  | commitB (ok : Bool)
  | commitE (ok : Bool)
  | commitS (ok : Bool)
  | setPtr
deriving DecidableEq

/-- Embedding of `submitBlock` (ledger_store.go): verify the block root against the
accumulated transaction roots (skipped at height zero), open the three
batches, run the four save phases, then commit block store, event store
(explicitly before the state store, because only the event store is
idempotently re-appliable during recovery) and state store, and only
then move the in-memory current-block pointer.  The returned event list
is the observed commit trace. -/
def submitBlockP (cfg : Config) (f : FaultSpec) (st : LedgerState) (b : Block)
    (r : ExecuteResult) : List CEv × LedgerState × Option Err :=
  let blockRoot := GetBlockRootWithNewTxRootsL st b.header.height [b.header.txRoot]
  if b.header.height ≠ 0 ∧ blockRoot ≠ b.header.blockRoot then ([], st, some .rootMismatch)
  else
    let st := { st with blockStore := st.blockStore.newBatch,
                        stateStore := st.stateStore.newBatch,
                        eventStore := st.eventStore.newBatch }
    let st := saveBlockToBlockStoreP st b
    let st := saveBlockToStateStoreP cfg st b r
    let st := saveBlockToEventStoreP st b
    match saveCrossShardDataToStoreP cfg st b r with
    | .error e => ([], st, some e)
    | .ok st =>
      match st.blockStore.commitTo f.fb with
      | .error _ => ([.commitB false], st, some .storeFault)
      | .ok bs =>
        let st := { st with blockStore := bs }
        match st.eventStore.commitTo f.fe with
        | .error _ => ([.commitB true, .commitE false], st, some .storeFault)
        | .ok es =>
          let st := { st with eventStore := es }
          match st.stateStore.commitTo f.fs with
          | .error _ => ([.commitB true, .commitE true, .commitS false], st, some .storeFault)
          | .ok ss =>
            let st := { st with stateStore := ss }
            ([.commitB true, .commitE true, .commitS true, .setPtr],
             setCurrentBlockF st b.header.height b.header.hsh, none)

/-- Embedding of `SubmitBlock` (ledger_store.go): a height at or below the committed
one is a successful no-op; a height other than the next fails; at the
next height the header is verified and `submitBlock` commits, after
which the header leaves the cache. -/
def SubmitBlockL (ext : ExtOps) (cfg : Config) (f : FaultSpec) (st : LedgerState)
    (b : Block) (r : ExecuteResult) : List CEv × LedgerState × Option Err :=
  if b.header.height ≤ st.currBlockHeight then ([], st, none)
  else if b.header.height ≠ u32 (st.currBlockHeight + 1) then ([], st, some .heightMismatch)
  else
    match verifyHeaderP ext cfg st b.header st.vbftPeerInfoblock with
    | .error e => ([], st, some e)
    | .ok p =>
      let st := { st with vbftPeerInfoblock := p }
      let res := submitBlockP cfg f st b r
      match res.2.2 with
      | some e => (res.1, res.2.1, some e)
      | none => (res.1, delHeaderCacheF res.2.1 b.header.hsh, none)

/-- The loop body sequence of `recoverStore` (ledger_store.go), walking
`fuel` heights upward from `i`: fetch the block persisted at height
`i`, open fresh event- and state-store batches, re-execute, re-save to
state and event stores, and commit event store before state store. -/
def recoverLoop (ext : ExtOps) (cfg : Config) (f : FaultSpec) :
    Nat → Nat → LedgerState → Except Err LedgerState
  | 0, _, st => .ok st
  | fuel + 1, i, st =>
    match bsGetBlockHash st.blockStore.data i with
    | .error e => .error e
    | .ok bh =>
      match bsGetBlock st.blockStore.data bh with
      | .error e => .error e
      | .ok blk =>
        let st := { st with eventStore := st.eventStore.newBatch,
                            stateStore := st.stateStore.newBatch }
        match (executeBlockP ext cfg st.stateStore.data blk.shardIds blk).2 with
        | .error e => .error e
        | .ok res =>
          let st := saveBlockToStateStoreP cfg st blk res
          let st := saveBlockToEventStoreP st blk
          match st.eventStore.commitTo f.fe with
          | .error e => .error e
          | .ok es =>
            let st := { st with eventStore := es }
            match st.stateStore.commitTo f.fs with
            | .error e => .error e
            | .ok ss => recoverLoop ext cfg f fuel (i + 1) { st with stateStore := ss }

/-- Embedding of `recoverStore` (ledger_store.go): compare the in-memory (block
store) height with the state store height and run the recovery loop
`for i := stateHeight; i < blockHeight; i++` — i.e. over the heights
`stateHeight, …, blockHeight - 1`. -/
def recoverStoreP (ext : ExtOps) (cfg : Config) (f : FaultSpec) (st : LedgerState) :
    Except Err LedgerState :=
  recoverLoop ext cfg f (st.currBlockHeight - st.stateStore.data.currH)
    st.stateStore.data.currH st

/-- Embedding of `loadCurrentBlock`: adopt the block store's current pointer as the
in-memory pointer. -/
def loadCurrentBlockP (st : LedgerState) : LedgerState :=
  { st with currBlockHeight := st.blockStore.data.currH,
            currBlockHash := st.blockStore.data.currHash }

/-- The loop of `loadHeaderIndexList`, resolving every height from the
stored index count up to the current block height to its block hash (a
missing or empty hash is fatal). -/
def loadHeaderLoop (bs : BlockStoreData) :
    Nat → Nat → List (Nat × Nat) → Except Err (List (Nat × Nat))
  | 0, _, hi => .ok hi
  | fuel + 1, i, hi =>
    match bsGetBlockHash bs i with
    | .error e => .error e
    | .ok h => if h = 0 then .error .hashNil else loadHeaderLoop bs fuel (i + 1) (aset hi i h)

/-- Embedding of `loadHeaderIndexList` (ledger_store.go). -/
def loadHeaderIndexListP (st : LedgerState) : Except Err LedgerState :=
  let headerIndex := st.blockStore.data.headerIdxStored
  let storeIndexCount := headerIndex.length
  match loadHeaderLoop st.blockStore.data (st.currBlockHeight + 1 - storeIndexCount)
      storeIndexCount headerIndex with
  | .error e => .error e
  | .ok hi => .ok { st with headerIndex := hi, storedIndexCount := storeIndexCount }

/-- Embedding of `init` (ledger_store.go): the startup sequence `loadCurrentBlock`,
`loadHeaderIndexList`, `recoverStore`. -/
def initP (ext : ExtOps) (cfg : Config) (f : FaultSpec) (st : LedgerState) :
    Except Err LedgerState :=
  let st := loadCurrentBlockP st
  match loadHeaderIndexListP st with
  | .error e => .error e
  | .ok st => recoverStoreP ext cfg f st

/-- The canonical processing order of one block's transactions: every
inbound cross-shard group, in ascending numeric shard-id order, each
transaction preceded by a cache reset, followed by the intra-shard
transactions in block order, each preceded by a cache reset. -/
def canonicalTrace (b : Block) : List TEv :=
  (sortNat b.shardIds).flatMap (fun sid =>
    (b.shardGroup sid).flatMap (fun stx => [TEv.reset, TEv.shardHandled sid stx.tx.hash])) ++
  b.transactions.flatMap (fun t => [TEv.reset, TEv.txHandled t.hash])

/-- Default-valued extraction from an `Except`. -/
def exceptD {α : Type} (d : α) : Except Err α → α
  | .ok a => a
  | .error _ => d

/-- The in-memory current-block pointer of a ledger state. -/
def ptrOf (st : LedgerState) : Nat × Nat := (st.currBlockHeight, st.currBlockHash)

/-- Concrete collaborator instance: handlers that leave the state and
notification untouched and succeed, trivial signature checks. -/
def trivExt : ExtOps :=
  { handleDeploy := fun _ _ _ ev s => (s, ev, false)
    handleMeta := fun _ _ _ ev s => (s, ev, false)
    handleInvoke := fun _ _ _ n s => (s, n, false)
    handleShardCall := fun _ _ _ n s => (s, n, false)
    refresh := fun _ _ => .ok []
    verifyMultiSig := fun _ _ _ _ => true
    addrFromBookkeepers := fun _ => 0 }

/-- Concrete configuration: solo consensus, event log enabled,
state-hash threshold height 10. -/
def cfg0 : Config :=
  { consensus := .solo, enableEventLog := true, baseGas := [], stateHashCheckHeight := 10 }

/-- Empty block store content. -/
def emptyBlockStore : BlockStoreData :=
  { currH := 0, currHash := 0, blocks := [], headers := [], blockHashIdx := [],
    headerIdxStored := [] }

/-- Empty state store content. -/
def emptyStateStore : StateStoreData :=
  { currH := 0, currHash := 0, raw := [], leaves := [], rootsByHeight := [], txRoots := [],
    shardEvents := [] }

/-- Empty event store content. -/
def emptyEventStore : EventStoreData :=
  { currH := 0, currHash := 0, notifyByTx := [], notifyByBlock := [], shardCfg := [],
    shardHeights := [], contractMeta := [], contractEvents := [] }

/-- The ledger before genesis initialization. -/
def emptyLedger : LedgerState :=
  { blockStore := ⟨emptyBlockStore, emptyBlockStore⟩,
    stateStore := ⟨emptyStateStore, emptyStateStore⟩,
    eventStore := ⟨emptyEventStore, emptyEventStore⟩,
    storedIndexCount := 0, currBlockHeight := 0, currBlockHash := 0,
    headerCache := [], headerIndex := [], vbftPeerInfoheader := [], vbftPeerInfoblock := [] }

/-- Genesis header of the concrete scenario (height 0, hash 100). -/
def genHeader : Header :=
  { version := 0, shardID := 0, height := 0, parentHeight := 0, prevBlockHash := 0,
    txRoot := 11, blockRoot := 0, timestamp := 1, nextBookkeeper := 0, bookkeepers := [],
    sigData := [], blkInfo := none, hsh := 100 }

/-- Genesis block: no transactions, no inbound shard groups. -/
def genBlock : Block := { header := genHeader, transactions := [], shardTxs := [] }

/-- Execution result of the genesis block from the empty store. -/
def genRes : ExecuteResult :=
  exceptD emptyResult (executeBlockP trivExt cfg0 emptyLedger.stateStore.data [] genBlock).2

/-- The ledger right after the genesis commit (the
`InitLedgerStoreWithGenesisBlock` execute-and-submit pair). -/
def st0 : LedgerState := (submitBlockP cfg0 noFault emptyLedger genBlock genRes).2.1

/-- Header of block 1 (hash 101, previous hash the genesis hash,
matching block root). -/
def hdr1 : Header :=
  { version := 0, shardID := 0, height := 1, parentHeight := 0, prevBlockHash := 100,
    txRoot := 12, blockRoot := GetBlockRootWithNewTxRootsL st0 1 [12], timestamp := 2,
    nextBookkeeper := 0, bookkeepers := [], sigData := [], blkInfo := none, hsh := 101 }

/-- Block 1: empty, sequential successor of the genesis block. -/
def blk1 : Block := { header := hdr1, transactions := [], shardTxs := [] }

/-- Execution result of block 1 from the post-genesis state store. -/
def res1 : ExecuteResult :=
  exceptD emptyResult (executeBlockP trivExt cfg0 st0.stateStore.data [] blk1).2

/-- The ledger after an uninterrupted commit of block 1. -/
def uninterrupted1 : LedgerState := (submitBlockP cfg0 noFault st0 blk1 res1).2.1

/-- The ledger after a crash while committing block 1: the block-store
commit succeeded and the event/state-store commits did not happen
(injected as an event-store commit fault). -/
def crashed1 : LedgerState :=
  (submitBlockP cfg0 { fb := false, fe := true, fs := false } st0 blk1 res1).2.1

/-- The ledger produced by restarting on the crashed state: the `init`
sequence, whose last step is `recoverStore`. -/
def recovered1 : Except Err LedgerState := initP trivExt cfg0 noFault crashed1

/-- A block with two inbound shard groups and one intra-shard
transaction, used to exercise the determinism and ordering theorems on
a concrete input. -/
def wBlock : Block :=
  { header := { genHeader with height := 1, hsh := 200 },
    transactions := [{ txType := .invoke, shardID := 0, hash := 23 }],
    shardTxs := [(2, [⟨{ txType := .shardCall, shardID := 2, hash := 21 }⟩]),
                 (1, [⟨{ txType := .shardCall, shardID := 1, hash := 22 }⟩])] }

/-- A genesis block whose block root matches nothing and whose signer
data would fail any real signature check. -/
def genBadRoot : Block :=
  { genBlock with header := { genHeader with blockRoot := 555, bookkeepers := [9] } }

/-- A committed-height-5 ledger used to exhibit the stale-submission
no-op. -/
def stC : LedgerState := { emptyLedger with currBlockHeight := 5 }

/-- A non-genesis block violating the chain invariant (its previous
header does not exist), at a stale height. -/
def bBad : Block :=
  { header := { genHeader with height := 3, prevBlockHash := 999, hsh := 103 },
    transactions := [], shardTxs := [] }

/-- The successful result of executing `wBlock` with the reversed
enumeration order. -/
def wRes : ExecuteResult :=
  exceptD emptyResult (executeBlockP trivExt cfg0 emptyStateStore [2, 1] wBlock).2

/-- The shard-group phase of the concrete `wBlock` run. -/
def wG : List TEv × Except Err ExecSt :=
  runShardGroups trivExt [] wBlock.header wBlock (sortNat [2, 1]) (execInit emptyStateStore)

/-- Its final state. -/
def wS1 : ExecSt := exceptD (execInit emptyStateStore) wG.2

/-- The intra-shard phase of the concrete `wBlock` run. -/
def wI : List TEv × Except Err ExecSt :=
  runIntraTxs trivExt [] wBlock.header wBlock.transactions wS1

/-- Its final state. -/
def wS2 : ExecSt := exceptD (execInit emptyStateStore) wI.2

/-- The ledger produced by the recovery run, extracted. -/
def recSt : LedgerState := exceptD emptyLedger recovered1

deriving instance DecidableEq for Except

theorem sortNat_eq_of_perm {o1 o2 : List Nat} (h : o1.Perm o2) : sortNat o1 = sortNat o2 := by
  unfold sortNat
  exact List.eq_of_perm_of_sorted
    ((List.perm_insertionSort _ o1).trans (h.trans (List.perm_insertionSort _ o2).symm))
    (List.sorted_insertionSort _ o1) (List.sorted_insertionSort _ o2)

/-- C1: block execution is deterministic — two executions of
`executeBlock` on the same block over the same pre-state store (each
opening its own fresh overlay inside `executeBlockP`), differing only
in the arbitrary order in which the Go map range enumerates the
inbound shard groups, produce the same `ExecuteResult.Hash` and the
same `WriteSet`. -/
theorem C1_executeBlock_deterministic (ext : ExtOps) (cfg : Config) (ss : StateStoreData)
    (b : Block) (o1 o2 : List Nat) (hperm : o1.Perm o2) :
    (executeBlockP ext cfg ss o1 b).2.map ExecuteResult.hash =
      (executeBlockP ext cfg ss o2 b).2.map ExecuteResult.hash ∧
    (executeBlockP ext cfg ss o1 b).2.map ExecuteResult.writeSet =
      (executeBlockP ext cfg ss o2 b).2.map ExecuteResult.writeSet := by
  unfold executeBlockP
  rw [sortNat_eq_of_perm hperm]
  exact ⟨rfl, rfl⟩

/-- Witness for C1: the two enumeration orders of `wBlock`'s shard-group
map yield identical hash and write set. -/
theorem C1_witness :
    (executeBlockP trivExt cfg0 emptyStateStore [2, 1] wBlock).2.map ExecuteResult.hash =
      (executeBlockP trivExt cfg0 emptyStateStore [1, 2] wBlock).2.map ExecuteResult.hash ∧
    (executeBlockP trivExt cfg0 emptyStateStore [2, 1] wBlock).2.map ExecuteResult.writeSet =
      (executeBlockP trivExt cfg0 emptyStateStore [1, 2] wBlock).2.map ExecuteResult.writeSet :=
  C1_executeBlock_deterministic trivExt cfg0 emptyStateStore wBlock [2, 1] [1, 2] (by decide)

/-- C2: `SubmitBlock` enforces strict height ordering — a block at or
below the committed height is a successful no-op that leaves the whole
ledger state (all three stores included) untouched, and a block whose
height is neither at nor one above the committed height fails without
mutating anything; only the successor height proceeds to commit. -/
theorem C2_submit_strict_height (ext : ExtOps) (cfg : Config) (f : FaultSpec)
    (st : LedgerState) (b : Block) (r : ExecuteResult)
    (hcase : b.header.height ≤ st.currBlockHeight ∨
      (st.currBlockHeight < b.header.height ∧ b.header.height ≠ u32 (st.currBlockHeight + 1))) :
    (SubmitBlockL ext cfg f st b r).2.1 = st ∧
      ((SubmitBlockL ext cfg f st b r).2.2 = none ↔ b.header.height ≤ st.currBlockHeight) := by
  rcases hcase with h | ⟨h1, h2⟩
  · simp [SubmitBlockL, h]
  · simp [SubmitBlockL, h2, Nat.not_le.mpr h1]

/-- Witness for C2: resubmitting the genesis block over the
post-genesis ledger is a successful no-op. -/
theorem C2_witness :
    (SubmitBlockL trivExt cfg0 noFault st0 genBlock emptyResult).2.1 = st0 ∧
      ((SubmitBlockL trivExt cfg0 noFault st0 genBlock emptyResult).2.2 = none ↔
        genBlock.header.height ≤ st0.currBlockHeight) :=
  C2_submit_strict_height trivExt cfg0 noFault st0 genBlock emptyResult (Or.inl (by decide))

/-- C5: `ExecuteBlock` idempotence — at a height at or below the
committed one it returns the previously recorded state Merkle root in
an otherwise zero result (no notifications, no write set) with an empty
execution trace (no transaction re-executed, no handler invoked); at a
height that is neither that nor the successor it returns an error, again
executing nothing. -/
theorem C5_ExecuteBlock_idempotent (ext : ExtOps) (cfg : Config) (st : LedgerState)
    (order : List Nat) (b : Block)
    (hcase : b.header.height ≤ st.currBlockHeight ∨
      (st.currBlockHeight < b.header.height ∧ b.header.height ≠ u32 (st.currBlockHeight + 1))) :
    ExecuteBlockL ext cfg st order b =
      ([], if b.header.height ≤ st.currBlockHeight then
            (ssGetStateMerkleRoot st.stateStore.data b.header.height).map
              (fun root => { emptyResult with merkleRoot := root })
          else .error .heightMismatch) := by
  rcases hcase with h | ⟨h1, h2⟩
  · simp [ExecuteBlockL, h]
  · simp [ExecuteBlockL, h2, Nat.not_le.mpr h1]

/-- Witness for C5: re-executing the genesis block over the
post-genesis ledger returns only the recorded root. -/
theorem C5_witness :
    ExecuteBlockL trivExt cfg0 st0 [] genBlock =
      ([], if genBlock.header.height ≤ st0.currBlockHeight then
            (ssGetStateMerkleRoot st0.stateStore.data genBlock.header.height).map
              (fun root => { emptyResult with merkleRoot := root })
          else .error .heightMismatch) :=
  C5_ExecuteBlock_idempotent trivExt cfg0 st0 [] genBlock (Or.inl (by decide))

/-- C7: error scoping of `HandleTransaction` — it returns an error
exactly when the overlay's internal storage error flag is set after the
dispatched handler ran; with the flag clear it returns successfully and
reports the handler's outcome (failed or not) only through the
transaction's notification, which starts from the failed state. -/
theorem C7_error_scoping (ext : ExtOps) (gt : GasTable) (hdr : Header) (tx : Tx)
    (s : HandlerSt) :
    ((∃ e, HandleTransactionP ext gt hdr tx s = .error e) ↔
      (rawDispatch ext gt hdr tx s).1.ov.err = true) ∧
    ((rawDispatch ext gt hdr tx s).1.ov.err = false →
      ∃ s2, HandleTransactionP ext gt hdr tx s = .ok (s2, (rawDispatch ext gt hdr tx s).2.1)) ∧
    (initNotify tx).state = .fail := by
  refine ⟨?_, ?_, rfl⟩ <;>
    cases htx : tx.txType <;>
      simp only [HandleTransactionP, rawDispatch, htx] <;>
      split <;> simp_all

/-- Witness for C7: a trivially succeeding invoke handler leaves the
flag clear, and `HandleTransaction` succeeds with the handler's
notification. -/
theorem C7_witness :
    ∃ s2, HandleTransactionP trivExt [] genHeader { txType := .invoke, shardID := 0, hash := 77 }
        (execInit emptyStateStore).hs =
      .ok (s2, (rawDispatch trivExt [] genHeader { txType := .invoke, shardID := 0, hash := 77 }
        (execInit emptyStateStore).hs).2.1) :=
  (C7_error_scoping trivExt [] genHeader { txType := .invoke, shardID := 0, hash := 77 }
    (execInit emptyStateStore).hs).2.1 (by decide)

theorem ptr_foldl {α : Type} (f : LedgerState → α → LedgerState)
    (hf : ∀ st a, ptrOf (f st a) = ptrOf st) :
    ∀ (l : List α) (st : LedgerState), ptrOf (l.foldl f st) = ptrOf st
  | [], _ => rfl
  | a :: l, st => by rw [List.foldl_cons, ptr_foldl f hf l, hf]

theorem ptr_addShardEventConfigP (st : LedgerState) (h sid : Nat) (c : Nat × Nat)
    (p : List (Nat × Nat)) : ptrOf (addShardEventConfigP st h sid c p) = ptrOf st := rfl

theorem ptr_saveHeaderIndexListP (st : LedgerState) :
    ptrOf (saveHeaderIndexListP st) = ptrOf st := rfl

theorem ptr_saveBlockToBlockStoreP (st : LedgerState) (b : Block) :
    ptrOf (saveBlockToBlockStoreP st b) = ptrOf st := by
  unfold saveBlockToBlockStoreP setHeaderIndexF
  rw [show ∀ s : LedgerState, ptrOf { s with blockStore := s.blockStore.write _ } = ptrOf s
        from fun _ => rfl]
  exact ptr_saveHeaderIndexListP _

theorem ptr_saveBlockToStateStoreP (cfg : Config) (st : LedgerState) (b : Block)
    (r : ExecuteResult) : ptrOf (saveBlockToStateStoreP cfg st b r) = ptrOf st := by
  unfold saveBlockToStateStoreP saveShardStateP
  split <;> rfl

theorem ptr_saveBlockToEventStoreP (st : LedgerState) (b : Block) :
    ptrOf (saveBlockToEventStoreP st b) = ptrOf st := rfl

theorem ptr_saveCrossShardGovernanceDataP :
    ∀ (evts : List (Nat × ShardEventState)) (st : LedgerState) (ws : List (Bytes × Bytes)),
      ptrOf (saveCrossShardGovernanceDataP st ws evts) = ptrOf st
  | [], _, _ => rfl
  | (_, e) :: rest, st, ws => by
    simp only [saveCrossShardGovernanceDataP]
    split
    · split
      · exact ptr_addShardEventConfigP ..
      · exact ptr_saveCrossShardGovernanceDataP rest st ws
    · split
      · split
        · split
          · exact ptr_addShardEventConfigP ..
          · exact ptr_saveCrossShardGovernanceDataP rest st ws
        · exact ptr_saveCrossShardGovernanceDataP rest st ws
      · exact ptr_saveCrossShardGovernanceDataP rest st ws

theorem ptr_saveParentShardConfigP (cfg : Config) (st st2 : LedgerState) (b : Block)
    (h : saveParentShardConfigP cfg st b = .ok st2) : ptrOf st2 = ptrOf st := by
  unfold saveParentShardConfigP at h
  split at h
  · injection h with h
    exact h ▸ rfl
  · split at h
    · exact Except.noConfusion h
    · split at h
      · injection h with h
        exact h ▸ rfl
      · split at h
        · exact Except.noConfusion h
        · injection h with h
          exact h ▸ ptr_addShardEventConfigP ..

theorem saveParentShardConfigP_err (cfg : Config) (st : LedgerState) (b : Block) (e : Err)
    (h : saveParentShardConfigP cfg st b = .error e) : e = .badPayload := by
  unfold saveParentShardConfigP at h
  split at h
  · exact Except.noConfusion h
  · split at h
    · injection h with h
      exact h.symm
    · split at h
      · exact Except.noConfusion h
      · split at h
        · injection h with h
          exact h.symm
        · exact Except.noConfusion h

theorem ptr_saveCrossShardDeployP (s : LedgerState) (cs : List ContractLifetimeEvent) :
    ptrOf (saveCrossShardDeployP s cs) = ptrOf s := by
  unfold saveCrossShardDeployP
  refine ptr_foldl _ ?_ cs s
  intro st a
  rfl

theorem ptr_saveContractMetaDataP (s : LedgerState) (ms : List MetaDataEvent) :
    ptrOf (saveContractMetaDataP s ms) = ptrOf s := by
  unfold saveContractMetaDataP
  refine ptr_foldl _ ?_ ms s
  intro st a
  rfl

theorem ptr_saveCrossShardDataToStoreP (cfg : Config) (st st2 : LedgerState) (b : Block)
    (r : ExecuteResult) (h : saveCrossShardDataToStoreP cfg st b r = .ok st2) :
    ptrOf st2 = ptrOf st := by
  unfold saveCrossShardDataToStoreP at h
  dsimp only at h
  split at h
  · exact Except.noConfusion h
  · injection h with h
    subst h
    rw [ptr_saveCrossShardDeployP, ptr_saveContractMetaDataP]
    rename_i st1 heq
    rw [ptr_saveParentShardConfigP cfg _ st1 b heq]
    exact ptr_saveCrossShardGovernanceDataP ..

theorem saveCrossShardDataToStoreP_err (cfg : Config) (st : LedgerState) (b : Block)
    (r : ExecuteResult) (e : Err) (h : saveCrossShardDataToStoreP cfg st b r = .error e) :
    e = .badPayload := by
  unfold saveCrossShardDataToStoreP at h
  dsimp only at h
  split at h
  · rename_i heq
    injection h with h
    exact h ▸ saveParentShardConfigP_err cfg _ b _ heq
  · exact Except.noConfusion h

/-- C10: the genesis exception — `verifyHeader` returns immediately
with no prev-header, timestamp, bookkeeper or signature check when the
header height is zero, and `submitBlock` skips the block-root
consistency check for a height-zero block, so a genesis block commits
(fault-free, solo consensus) without any quorum validation, whatever
its block root or signer data. -/
theorem C10_genesis_skip (ext : ExtOps) (cfg : Config) (f : FaultSpec) (st : LedgerState)
    (p : List (Nat × Nat)) (b : Block) (r : ExecuteResult) (h0 : b.header.height = 0) :
    verifyHeaderP ext cfg st b.header p = .ok p ∧
    (cfg.consensus = .solo → f = noFault →
      (submitBlockP cfg f st b r).2.2 = none ∧
      (submitBlockP cfg f st b r).2.1.currBlockHash = b.header.hsh) := by
  refine ⟨by simp [verifyHeaderP, h0], ?_⟩
  intro hsolo hf
  subst hf
  constructor <;>
    simp [submitBlockP, h0, saveCrossShardDataToStoreP, saveParentShardConfigP, hsolo,
      Batched.commitTo, noFault, setCurrentBlockF]

/-- Witness for C10: the mismatched-root, bogus-signer genesis block
passes `verifyHeader` and commits. -/
theorem C10_witness :
    verifyHeaderP trivExt cfg0 emptyLedger genBadRoot.header [] = .ok [] ∧
    (cfg0.consensus = .solo → noFault = noFault →
      (submitBlockP cfg0 noFault emptyLedger genBadRoot emptyResult).2.2 = none ∧
      (submitBlockP cfg0 noFault emptyLedger genBadRoot emptyResult).2.1.currBlockHash =
        genBadRoot.header.hsh) :=
  C10_genesis_skip trivExt cfg0 noFault emptyLedger [] genBadRoot emptyResult rfl

/-- C4: durable commit ordering in `submitBlock` — every state-store
commit attempt in the observed trace is preceded by a successful
event-store commit, the in-memory current-block pointer update happens
only after a successful state-store commit (and only on the error-free
path), and any error leaves the in-memory pointer untouched. -/
theorem C4_commit_order (cfg : Config) (f : FaultSpec) (st : LedgerState) (b : Block)
    (r : ExecuteResult) (tr : List CEv) (st2 : LedgerState) (e : Option Err)
    (hout : submitBlockP cfg f st b r = (tr, st2, e)) :
    (∀ ok, CEv.commitS ok ∈ tr →
      ∃ l1 l2 l3, tr = l1 ++ CEv.commitE true :: l2 ++ CEv.commitS ok :: l3) ∧
    (CEv.setPtr ∈ tr →
      (∃ l1 l2 l3, tr = l1 ++ CEv.commitS true :: l2 ++ CEv.setPtr :: l3) ∧ e = none) ∧
    (e ≠ none → ptrOf st2 = ptrOf st) := by
  unfold submitBlockP at hout
  dsimp only at hout
  split at hout
  · simp only [Prod.mk.injEq] at hout
    obtain ⟨rfl, rfl, rfl⟩ := hout
    refine ⟨fun ok h => absurd h (by simp), fun h => absurd h (by simp), fun _ => rfl⟩
  · split at hout
    · rename_i e1 heq
      simp only [Prod.mk.injEq] at hout
      obtain ⟨rfl, rfl, rfl⟩ := hout
      refine ⟨fun ok h => absurd h (by simp), fun h => absurd h (by simp), fun _ => ?_⟩
      rw [ptr_saveBlockToEventStoreP, ptr_saveBlockToStateStoreP, ptr_saveBlockToBlockStoreP]
      rfl
    · rename_i stY heq
      split at hout
      · simp only [Prod.mk.injEq] at hout
        obtain ⟨rfl, rfl, rfl⟩ := hout
        refine ⟨fun ok h => absurd h (by simp), fun h => absurd h (by simp), fun _ => ?_⟩
        rw [ptr_saveCrossShardDataToStoreP cfg _ stY b r heq,
          ptr_saveBlockToEventStoreP, ptr_saveBlockToStateStoreP, ptr_saveBlockToBlockStoreP]
        rfl
      · split at hout
        · simp only [Prod.mk.injEq] at hout
          obtain ⟨rfl, rfl, rfl⟩ := hout
          refine ⟨fun ok h => absurd h (by simp), fun h => absurd h (by simp), fun _ => ?_⟩
          rw [show ∀ v, ptrOf { stY with blockStore := v } = ptrOf stY from fun _ => rfl,
            ptr_saveCrossShardDataToStoreP cfg _ stY b r heq,
            ptr_saveBlockToEventStoreP, ptr_saveBlockToStateStoreP, ptr_saveBlockToBlockStoreP]
          rfl
        · split at hout
          · simp only [Prod.mk.injEq] at hout
            obtain ⟨rfl, rfl, rfl⟩ := hout
            refine ⟨?_, fun h => absurd h (by simp), fun _ => ?_⟩
            · intro ok h
              have hok : ok = false := by simpa using h
              subst hok
              exact ⟨[CEv.commitB true], [], [], rfl⟩
            · rw [show ∀ v w, ptrOf { stY with blockStore := v, eventStore := w } = ptrOf stY
                    from fun _ _ => rfl,
                ptr_saveCrossShardDataToStoreP cfg _ stY b r heq,
                ptr_saveBlockToEventStoreP, ptr_saveBlockToStateStoreP, ptr_saveBlockToBlockStoreP]
              rfl
          · simp only [Prod.mk.injEq] at hout
            obtain ⟨rfl, rfl, rfl⟩ := hout
            refine ⟨?_, fun _ => ⟨⟨[CEv.commitB true, CEv.commitE true], [], [], rfl⟩, rfl⟩,
              fun h => absurd rfl h⟩
            intro ok h
            have hok : ok = true := by simpa using h
            subst hok
            exact ⟨[CEv.commitB true], [], [CEv.setPtr], rfl⟩

/-- Witness for C4: a block whose root does not match fails, leaving
the in-memory pointer untouched. -/
theorem C4_witness :
    ptrOf (submitBlockP cfg0 noFault emptyLedger blk1 res1).2.1 = ptrOf emptyLedger :=
  (C4_commit_order cfg0 noFault emptyLedger blk1 res1
      (submitBlockP cfg0 noFault emptyLedger blk1 res1).1
      (submitBlockP cfg0 noFault emptyLedger blk1 res1).2.1
      (submitBlockP cfg0 noFault emptyLedger blk1 res1).2.2 rfl).2.2 (by decide)

/-- The header chain invariant of the spec: the previous header named
by `PrevBlockHash` exists and the new header is its height successor
(32-bit) with a strictly larger timestamp. -/
def chainOkB (st : LedgerState) (h : Header) : Bool :=
  match getHeaderByHash st h.prevBlockHash with
  | none => false
  | some prev =>
    decide (u32 (prev.height + 1) = h.height) && decide (prev.timestamp < h.timestamp)

theorem verify_ok_chain (ext : ExtOps) (cfg : Config) (st : LedgerState) (h : Header)
    (p q : List (Nat × Nat)) (hng : h.height ≠ 0)
    (hv : verifyHeaderP ext cfg st h p = .ok q) : chainOkB st h = true := by
  unfold verifyHeaderP at hv
  rw [if_neg hng] at hv
  split at hv
  · exact Except.noConfusion hv
  · rename_i prev hprev
    unfold chainOkB
    rw [hprev]
    split at hv
    · exact Except.noConfusion hv
    · split at hv
      · exact Except.noConfusion hv
      · rename_i hA hB
        simp only [ne_eq, not_not] at hA
        simp only [ge_iff_le, not_le] at hB
        simp [hA, hB]

theorem chain_bad_verify_err (ext : ExtOps) (cfg : Config) (st : LedgerState) (h : Header)
    (p : List (Nat × Nat)) (hng : h.height ≠ 0) (hbad : chainOkB st h = false) :
    ∃ e, verifyHeaderP ext cfg st h p = .error e := by
  unfold verifyHeaderP
  rw [if_neg hng]
  unfold chainOkB at hbad
  cases hprev : getHeaderByHash st h.prevBlockHash with
  | none =>
    exact ⟨.prevNotFound, rfl⟩
  | some prev =>
    rw [hprev] at hbad
    have hbad2 : (decide (u32 (prev.height + 1) = h.height) &&
        decide (prev.timestamp < h.timestamp)) = false := hbad
    dsimp only
    by_cases hA : u32 (prev.height + 1) = h.height
    · have hB : ¬ prev.timestamp < h.timestamp := by simpa [hA] using hbad2
      rw [if_neg (not_not_intro hA), if_pos (Nat.not_lt.mp hB)]
      exact ⟨.timestampIncorrect, rfl⟩
    · rw [if_pos hA]
      exact ⟨.heightIncorrect, rfl⟩

/-- C9 (amended): every non-genesis header accepted by `AddHeader`,
and every non-genesis block with which `SubmitBlock` advances the
ledger, satisfies the chain invariant (the previous header named by
`PrevBlockHash` exists, the height is its 32-bit successor and the
timestamp strictly larger); a violating header is never accepted and
never mutates state — `AddHeader` always returns an error, `SubmitBlock`
returns an error when the height is above the committed one, and a
stale violating block (height at or below the committed one) is
ignored as a successful no-op rather than rejected with an error. -/
theorem C9_header_chain_amended (ext : ExtOps) (cfg : Config) (f : FaultSpec)
    (st : LedgerState) (b : Block) (r : ExecuteResult) (hng : b.header.height ≠ 0) :
    (chainOkB st b.header = true ↔
      ∃ prev, getHeaderByHash st b.header.prevBlockHash = some prev ∧
        u32 (prev.height + 1) = b.header.height ∧ prev.timestamp < b.header.timestamp) ∧
    ((AddHeaderP ext cfg st b.header).2 = none → chainOkB st b.header = true) ∧
    ((SubmitBlockL ext cfg f st b r).2.1.currBlockHeight ≠ st.currBlockHeight →
      chainOkB st b.header = true) ∧
    (chainOkB st b.header = false →
      (AddHeaderP ext cfg st b.header).1 = st ∧ (AddHeaderP ext cfg st b.header).2 ≠ none ∧
      (st.currBlockHeight < b.header.height →
        (SubmitBlockL ext cfg f st b r).2.1 = st ∧ (SubmitBlockL ext cfg f st b r).2.2 ≠ none) ∧
      (b.header.height ≤ st.currBlockHeight →
        SubmitBlockL ext cfg f st b r = ([], st, none))) := by
  refine ⟨?_, ?_, ?_, ?_⟩
  · unfold chainOkB
    cases hprev : getHeaderByHash st b.header.prevBlockHash with
    | none => simp
    | some prev => simp
  · intro hnone
    unfold AddHeaderP at hnone
    split at hnone
    · simp at hnone
    · split at hnone
      · simp at hnone
      · rename_i q hq
        exact verify_ok_chain ext cfg st b.header _ q hng hq
  · intro hne
    unfold SubmitBlockL at hne
    split at hne
    · simp at hne
    · split at hne
      · simp at hne
      · split at hne
        · simp at hne
        · rename_i q hq
          exact verify_ok_chain ext cfg st b.header _ q hng hq
  · intro hbad
    refine ⟨?_, ?_, ?_, ?_⟩
    · unfold AddHeaderP
      split
      · rfl
      · obtain ⟨e, he⟩ := chain_bad_verify_err ext cfg st b.header _ hng hbad
        rw [he]
    · unfold AddHeaderP
      split
      · simp
      · obtain ⟨e, he⟩ := chain_bad_verify_err ext cfg st b.header _ hng hbad
        rw [he]
        simp
    · intro hlt
      unfold SubmitBlockL
      rw [if_neg (Nat.not_le.mpr hlt)]
      by_cases hnext : b.header.height = u32 (st.currBlockHeight + 1)
      · rw [if_neg (not_not_intro hnext)]
        obtain ⟨e, he⟩ := chain_bad_verify_err ext cfg st b.header st.vbftPeerInfoblock hng hbad
        rw [he]
        exact ⟨rfl, by simp⟩
      · rw [if_pos hnext]
        exact ⟨rfl, by simp⟩
    · intro hle
      unfold SubmitBlockL
      rw [if_pos hle]

/-- Counterexample to C9 as stated: a non-genesis header violating the
chain invariant is not rejected with an error by `SubmitBlock` — at a
stale height the call returns success (a no-op). -/
theorem C9_counterexample :
    bBad.header.height ≠ 0 ∧ chainOkB stC bBad.header = false ∧
    SubmitBlockL trivExt cfg0 noFault stC bBad emptyResult = ([], stC, none) := by
  refine ⟨by decide, by decide, ?_⟩
  unfold SubmitBlockL
  rw [if_pos (by decide)]

/-- Witness for the amended C9: at the concrete violating input the
whole rejection clause evaluates as stated. -/
theorem C9_witness :
    (AddHeaderP trivExt cfg0 stC bBad.header).1 = stC ∧
      (AddHeaderP trivExt cfg0 stC bBad.header).2 ≠ none ∧
      (stC.currBlockHeight < bBad.header.height →
        (SubmitBlockL trivExt cfg0 noFault stC bBad emptyResult).2.1 = stC ∧
          (SubmitBlockL trivExt cfg0 noFault stC bBad emptyResult).2.2 ≠ none) ∧
      (bBad.header.height ≤ stC.currBlockHeight →
        SubmitBlockL trivExt cfg0 noFault stC bBad emptyResult = ([], stC, none)) :=
  (C9_header_chain_amended trivExt cfg0 noFault stC bBad emptyResult (by decide)).2.2.2
    (by decide)

theorem runShardGroup_ok_trace (ext : ExtOps) (gt : GasTable) (hdr : Header) (sid : Nat) :
    ∀ (txs : List ShardTx) (s fin : ExecSt) (tr : List TEv),
      runShardGroup ext gt hdr sid txs s = (tr, .ok fin) →
      tr = txs.flatMap (fun stx => [TEv.reset, TEv.shardHandled sid stx.tx.hash])
  | [], s, fin, tr => by
    intro h
    simp only [runShardGroup, Prod.mk.injEq] at h
    simp [← h.1]
  | stx :: rest, s, fin, tr => by
    intro h
    simp only [runShardGroup] at h
    split at h
    · simp only [Prod.mk.injEq] at h
      exact absurd h.2 (by simp)
    · split at h
      · simp only [Prod.mk.injEq] at h
        exact absurd h.2 (by simp)
      · rename_i hs1 n hh
        simp only [Prod.mk.injEq] at h
        obtain ⟨htr, hok⟩ := h
        subst htr
        have heq : runShardGroup ext gt hdr sid rest
            { hs := hs1,
              notify := s.notify ++ [n.contractEvent],
              shardNotify := s.shardNotify ++ n.shardMsg } =
            ((runShardGroup ext gt hdr sid rest
              { hs := hs1,
                notify := s.notify ++ [n.contractEvent],
                shardNotify := s.shardNotify ++ n.shardMsg }).1, .ok fin) :=
          Prod.ext_iff.mpr ⟨rfl, hok⟩
        rw [List.flatMap_cons, runShardGroup_ok_trace ext gt hdr sid rest _ fin _ heq]
        rfl

theorem runIntraTxs_ok_trace (ext : ExtOps) (gt : GasTable) (hdr : Header) :
    ∀ (txs : List Tx) (s fin : ExecSt) (tr : List TEv),
      runIntraTxs ext gt hdr txs s = (tr, .ok fin) →
      tr = txs.flatMap (fun t => [TEv.reset, TEv.txHandled t.hash])
  | [], s, fin, tr => by
    intro h
    simp only [runIntraTxs, Prod.mk.injEq] at h
    simp [← h.1]
  | tx :: rest, s, fin, tr => by
    intro h
    simp only [runIntraTxs] at h
    split at h
    · simp only [Prod.mk.injEq] at h
      exact absurd h.2 (by simp)
    · split at h
      · simp only [Prod.mk.injEq] at h
        exact absurd h.2 (by simp)
      · rename_i hs1 n hh
        simp only [Prod.mk.injEq] at h
        obtain ⟨htr, hok⟩ := h
        subst htr
        have heq : runIntraTxs ext gt hdr rest
            { hs := hs1,
              notify := s.notify ++ [n.contractEvent],
              shardNotify := s.shardNotify ++ n.shardMsg } =
            ((runIntraTxs ext gt hdr rest
              { hs := hs1,
                notify := s.notify ++ [n.contractEvent],
                shardNotify := s.shardNotify ++ n.shardMsg }).1, .ok fin) :=
          Prod.ext_iff.mpr ⟨rfl, hok⟩
        rw [List.flatMap_cons, runIntraTxs_ok_trace ext gt hdr rest _ fin _ heq]
        rfl

theorem runShardGroups_ok_trace (ext : ExtOps) (gt : GasTable) (hdr : Header) (b : Block) :
    ∀ (ids : List Nat) (s fin : ExecSt) (tr : List TEv),
      runShardGroups ext gt hdr b ids s = (tr, .ok fin) →
      tr = ids.flatMap (fun sid => (b.shardGroup sid).flatMap
        (fun stx => [TEv.reset, TEv.shardHandled sid stx.tx.hash]))
  | [], s, fin, tr => by
    intro h
    simp only [runShardGroups, Prod.mk.injEq] at h
    simp [← h.1]
  | sid :: rest, s, fin, tr => by
    intro h
    simp only [runShardGroups] at h
    split at h
    · simp only [Prod.mk.injEq] at h
      exact absurd h.2 (by simp)
    · rename_i s1 heq1
      simp only [Prod.mk.injEq] at h
      obtain ⟨htr, hok⟩ := h
      subst htr
      have t1 := runShardGroup_ok_trace ext gt hdr sid (b.shardGroup sid) s s1 _
        (Prod.ext_iff.mpr ⟨rfl, heq1⟩)
      have t2 := runShardGroups_ok_trace ext gt hdr b rest s1 fin _
        (Prod.ext_iff.mpr ⟨rfl, hok⟩)
      rw [List.flatMap_cons]
      exact congrArg₂ (· ++ ·) t1 t2

theorem executeBlockSorted_ok_trace (ext : ExtOps) (cfg : Config) (ss : StateStoreData)
    (ids : List Nat) (b : Block) (tr : List TEv) (res : ExecuteResult)
    (h : executeBlockSorted ext cfg ss ids b = (tr, .ok res)) :
    tr =
      ids.flatMap (fun sid => (b.shardGroup sid).flatMap
        (fun stx => [TEv.reset, TEv.shardHandled sid stx.tx.hash])) ++
      b.transactions.flatMap (fun t => [TEv.reset, TEv.txHandled t.hash]) := by
  unfold executeBlockSorted at h
  split at h
  · simp only [Prod.mk.injEq] at h
    exact absurd h.2 (by simp)
  · rename_i gt hgt
    dsimp only at h
    split at h
    · simp only [Prod.mk.injEq] at h
      exact absurd h.2 (by simp)
    · rename_i s1 hg
      split at h
      · simp only [Prod.mk.injEq] at h
        exact absurd h.2 (by simp)
      · rename_i s2 hi
        simp only [Prod.mk.injEq] at h
        obtain ⟨htr, hfin⟩ := h
        subst htr
        have t1 := runShardGroups_ok_trace ext gt b.header b ids (execInit ss) s1 _
          (Prod.ext_iff.mpr ⟨rfl, hg⟩)
        have t2 := runIntraTxs_ok_trace ext gt b.header b.transactions s1 s2 _
          (Prod.ext_iff.mpr ⟨rfl, hi⟩)
        exact congrArg₂ (· ++ ·) t1 t2

/-- C6: execution order inside a block — on every successful run of
`executeBlock` (whatever enumeration order the Go map range produced
for the inbound shard-transaction map), the observed trace is exactly
the canonical one: all inbound cross-shard groups first, in ascending
numeric order of their target shard id, then the intra-shard
transactions in block order, with the per-transaction cache sub-scope
reset before every single transaction. -/
theorem C6_execution_order (ext : ExtOps) (cfg : Config) (ss : StateStoreData) (b : Block)
    (order : List Nat) (res : ExecuteResult) (hperm : order.Perm b.shardIds)
    (hok : (executeBlockP ext cfg ss order b).2 = .ok res) :
    (executeBlockP ext cfg ss order b).1 = canonicalTrace b := by
  unfold executeBlockP at hok ⊢
  rw [sortNat_eq_of_perm hperm] at hok ⊢
  exact executeBlockSorted_ok_trace ext cfg ss (sortNat b.shardIds) b _ res
    (Prod.ext_iff.mpr ⟨rfl, hok⟩)

/-- Witness for C6: the concrete two-group block is processed in
ascending shard order, groups before intra-shard transactions, despite
the descending enumeration order. -/
theorem C6_witness :
    (executeBlockP trivExt cfg0 emptyStateStore [2, 1] wBlock).1 = canonicalTrace wBlock :=
  C6_execution_order trivExt cfg0 emptyStateStore wBlock [2, 1] wRes (by decide) rfl

/-- C8: the three-phase state root of `executeBlock` — writing `ov` for
the block's final overlay (after the cross-shard bookkeeping commit),
the result is `executeFinish` of `ov`, so: strictly below the
configured threshold the MerkleRoot is the fixed empty value (zero)
while the diff hash is the overlay change hash; at exactly the
threshold both MerkleRoot and Hash become the one-time full-state
accumulated hash `calculateTotalStateHash` over the contract and
storage namespaces; above the threshold the MerkleRoot folds the
overlay's incremental change hash into the previously accumulated
roots (`ssGetStateMerkleRootWithNewHash`) instead of recomputing. -/
theorem C8_three_phase_root (ext : ExtOps) (cfg : Config) (ss : StateStoreData) (b : Block)
    (order : List Nat) (gt : GasTable) (s1 s2 : ExecSt) (trG trI : List TEv)
    (hr : (if b.header.height ≠ 0 then ext.refresh ss b.header else .ok cfg.baseGas) = .ok gt)
    (hg : runShardGroups ext gt b.header b (sortNat order) (execInit ss) = (trG, .ok s1))
    (hi : runIntraTxs ext gt b.header b.transactions s1 = (trI, .ok s2)) :
    (executeBlockP ext cfg ss order b).2 =
      executeFinish cfg.stateHashCheckHeight ss b.header.height
        (xdbFinish b.header.height s2) s2.notify s2.shardNotify ∧
    (b.header.height < cfg.stateHashCheckHeight →
      (executeBlockP ext cfg ss order b).2 = .ok
        { hash := (xdbFinish b.header.height s2).changeHash,
          writeSet := (xdbFinish b.header.height s2).writeSet,
          merkleRoot := 0, notify := s2.notify, shardNotify := s2.shardNotify }) ∧
    (b.header.height = cfg.stateHashCheckHeight →
      ∀ rt, calculateTotalStateHash (xdbFinish b.header.height s2) = .ok rt →
        (executeBlockP ext cfg ss order b).2 = .ok
          { hash := rt, writeSet := (xdbFinish b.header.height s2).writeSet,
            merkleRoot := rt, notify := s2.notify, shardNotify := s2.shardNotify }) ∧
    (cfg.stateHashCheckHeight < b.header.height →
      (executeBlockP ext cfg ss order b).2 = .ok
        { hash := (xdbFinish b.header.height s2).changeHash,
          writeSet := (xdbFinish b.header.height s2).writeSet,
          merkleRoot := ssGetStateMerkleRootWithNewHash ss
            ((xdbFinish b.header.height s2).changeHash),
          notify := s2.notify, shardNotify := s2.shardNotify }) := by
  have hmain : (executeBlockP ext cfg ss order b).2 =
      executeFinish cfg.stateHashCheckHeight ss b.header.height
        (xdbFinish b.header.height s2) s2.notify s2.shardNotify := by
    unfold executeBlockP executeBlockSorted
    rw [hr]
    dsimp only
    rw [hg]
    dsimp only
    rw [hi]
  refine ⟨hmain, ?_, ?_, ?_⟩
  · intro hlt
    rw [hmain]
    unfold executeFinish
    rw [if_pos hlt]
  · intro heq rt hcalc
    rw [hmain]
    unfold executeFinish
    rw [if_neg (by omega), if_pos heq, hcalc]
  · intro hgt
    rw [hmain]
    unfold executeFinish
    rw [if_neg (by omega), if_neg (by omega)]

/-- Witness for C8: the concrete block at height 1, below the
threshold 10, gets the fixed empty MerkleRoot and the overlay change
hash. -/
theorem C8_witness :
    (executeBlockP trivExt cfg0 emptyStateStore [2, 1] wBlock).2 = .ok
      { hash := (xdbFinish wBlock.header.height wS2).changeHash,
        writeSet := (xdbFinish wBlock.header.height wS2).writeSet,
        merkleRoot := 0, notify := wS2.notify, shardNotify := wS2.shardNotify } :=
  (C8_three_phase_root trivExt cfg0 emptyStateStore wBlock [2, 1] [] wS1 wS2 wG.1 wI.1
    rfl rfl rfl).2.1 (by decide)

/-- C3 (code bug): crash recovery is not exact.  After the crash
between the block-store commit and the state-store commit of block 1
(block store at height 1, state store at height 0), the startup
recovery loop `for i := stateHeight; i < blockHeight; i++` re-executes
the block fetched at height `i` — i.e. the already-committed height 0 —
and never commits height 1: the recovered state store still reports
current height 0, while the uninterrupted run reports height 1. -/
theorem C3_recover_bug :
    (submitBlockP cfg0 noFault st0 blk1 res1).2.2 = none ∧
    uninterrupted1.stateStore.data.currH = 1 ∧
    crashed1.blockStore.data.currH = 1 ∧
    crashed1.stateStore.data.currH = 0 ∧
    recovered1 = .ok recSt ∧
    recSt.stateStore.data.currH = 0 ∧
    recSt.stateStore.data.currH ≠ uninterrupted1.stateStore.data.currH := by
  refine ⟨by decide, by decide, by decide, by decide, rfl, by decide, by decide⟩
